import Mathlib

/-!
Shallow embedding of the Document Lifecycle & Controlled-Distribution Engine
of the Prototype repository (server/routes.ts and its storage collaborators),
together with theorems settling the specification claims.

Statuses, roles and action types are the string literals used by the code
("pending", "approved", "declined", "issued"; "view", "print"; role names).
Timestamps are modelled as natural numbers supplied by the caller (`now`).
The external rendering pipeline (pdfService.convertWordToPDF) is modelled by
a boolean `renderOk` telling whether the rendering step succeeds.
-/

/-- A user row (server storage `users`). Fields not used by the engine
(password, username) are omitted. -/
structure User where
  id : String
  role : String
  fullName : String
  masterCopyAccess : Bool := false
deriving DecidableEq

/-- A document row (server storage `documents`). Optional fields default to
`none`, matching freshly created rows. -/
structure Document where
  id : String
  docName : String
  docNumber : String
  revisionNo : Int
  status : String
  preparedBy : String
  approvedBy : Option String := none
  issuedBy : Option String := none
  issuerName : Option String := none
  approvalRemarks : Option String := none
  declineRemarks : Option String := none
  issueRemarks : Option String := none
  approvedAt : Option Nat := none
  issuedAt : Option Nat := none
  previousVersionId : Option String := none
  wordFilePath : Option String := none
deriving DecidableEq

/-- A control-copy ledger row (server storage `controlCopies`). -/
structure ControlCopy where
  id : String
  documentId : String
  userId : String
  actionType : String
  copyNumber : Nat
  issuedAt : Nat
deriving DecidableEq

/-- A print-log audit row (server storage `printLogs`). -/
structure PrintLog where
  id : String
  documentId : String
  userId : String
  controlCopyId : String
  medium : String
deriving DecidableEq

/-- A notification row (server storage `notifications`). -/
structure Notification where
  id : String
  userId : String
  documentId : String
  message : String
  ntype : String
  read : Bool := false
deriving DecidableEq

/-- The whole persistent store (the JSON file-based storage). -/
structure Store where
  users : List User := []
  documents : List Document := []
  controlCopies : List ControlCopy := []
  printLogs : List PrintLog := []
  notifications : List Notification := []
  docDepartments : List (String × String) := []
deriving DecidableEq

/-- The empty store. -/
def emptyStore : Store := {}

/-- storage.getUser: first user row with the given id. -/
def getUser (s : Store) (userId : String) : Option User :=
  s.users.find? (fun u => u.id == userId)

/-- storage.getDocument: first document row with the given id. -/
def getDocument (s : Store) (docId : String) : Option Document :=
  s.documents.find? (fun d => d.id == docId)

/-- storage.getUsersByRole: all users with the given role. -/
def getUsersByRole (s : Store) (role : String) : List User :=
  s.users.filter (fun u => u.role == role)

/-- The issued revision set of a docNumber: storage.getDocumentsByStatus
("issued") filtered by docNumber, in store listing order (routes.ts
lines 495-496, 587-588, 717-718). -/
def issuedVersions (s : Store) (docNumber : String) : List Document :=
  (s.documents.filter (fun d => d.status == "issued")).filter
    (fun d => d.docNumber == docNumber)

/-- The reduce callback of the latest-version resolver (routes.ts lines
502-504, 594-596, 723-725):
`(latest, current) => current.revisionNo > latest.revisionNo ? current : latest`. -/
def pickLatest (latest current : Document) : Document :=
  if current.revisionNo > latest.revisionNo then current else latest

/-- The latest-version resolver: the JavaScript
`allVersions.reduce(pickLatest, allVersions[0])` on a non-empty array
`h :: t`. JS reduce with an initial value folds over every element, the
first included. -/
def latestVersion (h : Document) (t : List Document) : Document :=
  (h :: t).foldl pickLatest h

/-- storage.createNotification: append a row (fresh id, unread). -/
def createNotification (s : Store) (userId documentId message ntype : String) :
    Store :=
  { s with notifications := s.notifications ++
      [{ id := "n" ++ toString s.notifications.length, userId := userId,
         documentId := documentId, message := message, ntype := ntype }] }

/-- storage.updateDocument as used by the routes: merge the given field
update into every row carrying the id (a partial-field merge). -/
def updateDocument (s : Store) (docId : String) (f : Document → Document) :
    Store :=
  { s with documents := s.documents.map (fun d => if d.id == docId then f d else d) }

/-- Count of control copies already issued against a document id. -/
def copyCount (s : Store) (docId : String) : Nat :=
  (s.controlCopies.filter (fun c => c.documentId == docId)).length

/-- Modelled from the spec: storage.createControlCopy is not under src/ (only
its callers in routes.ts are). Per section 4.3 of the spec it issues
copyNumber = k + 1, where k is the count already issued for the documentId,
the read-increment-persist step being serialized per documentId; the counter
increment and the row creation commit together. -/
def createControlCopy (s : Store) (documentId userId actionType : String)
    (now : Nat) : ControlCopy × Store :=
  let cc : ControlCopy :=
    { id := "cc" ++ toString s.controlCopies.length, documentId := documentId,
      userId := userId, actionType := actionType,
      copyNumber := copyCount s documentId + 1, issuedAt := now }
  (cc, { s with controlCopies := s.controlCopies ++ [cc] })

/-- Modelled from the spec: storage.createPrintLog is not under src/ (only its
caller in routes.ts is). Per section 4.4 of the spec it appends an immutable
row referencing the new ControlCopy id. -/
def createPrintLog (s : Store) (documentId userId controlCopyId medium : String) :
    PrintLog × Store :=
  let pl : PrintLog :=
    { id := "pl" ++ toString s.printLogs.length, documentId := documentId,
      userId := userId, controlCopyId := controlCopyId, medium := medium }
  (pl, { s with printLogs := s.printLogs ++ [pl] })

/-- JavaScript `a || b` on strings: the empty string is falsy. -/
def jsOr (a b : String) : String := if a == "" then b else a

theorem pickLatest_left (a b : Document) :
    a.revisionNo ≤ (pickLatest a b).revisionNo := by
  simp only [pickLatest]; split <;> omega

theorem pickLatest_right (a b : Document) :
    b.revisionNo ≤ (pickLatest a b).revisionNo := by
  simp only [pickLatest]; split <;> omega

theorem pickLatest_self (a : Document) : pickLatest a a = a := by
  simp [pickLatest]

theorem foldl_pickLatest_mem :
    ∀ (l : List Document) (a : Document), l.foldl pickLatest a ∈ a :: l := by
  intro l
  induction l with
  | nil => intro a; simp
  | cons b l ih =>
    intro a
    simp only [List.foldl_cons]
    rcases List.mem_cons.mp (ih (pickLatest a b)) with h2 | h2
    · rw [h2]
      by_cases hb : b.revisionNo > a.revisionNo
      · simp [pickLatest, hb]
      · simp [pickLatest, hb]
    · exact List.mem_cons.mpr (Or.inr (List.mem_cons.mpr (Or.inr h2)))

theorem foldl_pickLatest_max :
    ∀ (l : List Document) (a : Document), ∀ x ∈ a :: l,
      x.revisionNo ≤ (l.foldl pickLatest a).revisionNo := by
  intro l
  induction l with
  | nil => intro a x hx; simp at hx; simp [hx]
  | cons b l ih =>
    intro a x hx
    simp only [List.foldl_cons]
    have hbase : (pickLatest a b).revisionNo ≤
        (l.foldl pickLatest (pickLatest a b)).revisionNo :=
      ih (pickLatest a b) _ (List.mem_cons_self _ _)
    rcases List.mem_cons.mp hx with h1 | h1
    · subst h1; exact le_trans (pickLatest_left x b) hbase
    · rcases List.mem_cons.mp h1 with h2 | h2
      · subst h2; exact le_trans (pickLatest_right a x) hbase
      · exact ih (pickLatest a b) x (List.mem_cons.mpr (Or.inr h2))

theorem foldl_pickLatest_first :
    ∀ (l : List Document) (a : Document), ∃ l₁ l₂,
      a :: l = l₁ ++ (l.foldl pickLatest a) :: l₂ ∧
      ∀ x ∈ l₁, x.revisionNo < (l.foldl pickLatest a).revisionNo := by
  intro l
  induction l with
  | nil => intro a; exact ⟨[], [], by simp, by simp⟩
  | cons b l ih =>
    intro a
    simp only [List.foldl_cons]
    by_cases hb : b.revisionNo > a.revisionNo
    · have hab : pickLatest a b = b := by simp [pickLatest, hb]
      rw [hab]
      obtain ⟨l₁, l₂, heq, hlt⟩ := ih b
      refine ⟨a :: l₁, l₂, ?_, ?_⟩
      · rw [List.cons_append]
        exact congrArg (a :: ·) heq
      · intro x hx
        rcases List.mem_cons.mp hx with h1 | h1
        · subst h1
          exact lt_of_lt_of_le hb
            (foldl_pickLatest_max l b b (List.mem_cons_self _ _))
        · exact hlt x h1
    · have hab : pickLatest a b = a := by simp [pickLatest, hb]
      rw [hab]
      obtain ⟨l₁, l₂, heq, hlt⟩ := ih a
      cases l₁ with
      | nil =>
        simp only [List.nil_append] at heq
        have ha : a = l.foldl pickLatest a := (List.cons.injEq _ _ _ _).mp heq |>.1
        have hl : l = l₂ := (List.cons.injEq _ _ _ _).mp heq |>.2
        refine ⟨[], b :: l₂, ?_, by simp⟩
        rw [List.nil_append, ← ha, hl]
      | cons c l₁' =>
        have heq' := (List.cons.injEq _ _ _ _).mp (by simpa using heq)
        have hac : a = c := heq'.1
        have hl : l = l₁' ++ (l.foldl pickLatest a) :: l₂ := heq'.2
        refine ⟨a :: b :: l₁', l₂, ?_, ?_⟩
        · simp only [List.cons_append]
          exact congrArg (fun z => a :: b :: z) hl
        · have hc_small : c.revisionNo < (l.foldl pickLatest a).revisionNo :=
            hlt c (List.mem_cons_self _ _)
          have harev : a.revisionNo = c.revisionNo := by rw [hac]
          have ha_small : a.revisionNo < (l.foldl pickLatest a).revisionNo := by
            rw [harev]; exact hc_small
          intro x hx
          rcases List.mem_cons.mp hx with h1 | h1
          · subst h1; exact ha_small
          · rcases List.mem_cons.mp h1 with h2 | h2
            · subst h2; omega
            · exact hlt x (List.mem_cons.mpr (Or.inr h2))

theorem latestVersion_eq_foldl (h : Document) (t : List Document) :
    latestVersion h t = t.foldl pickLatest h := by
  simp [latestVersion, pickLatest_self]

theorem latestVersion_mem (h : Document) (t : List Document) :
    latestVersion h t ∈ h :: t := by
  rw [latestVersion_eq_foldl]; exact foldl_pickLatest_mem t h

theorem latestVersion_max (h : Document) (t : List Document) :
    ∀ x ∈ h :: t, x.revisionNo ≤ (latestVersion h t).revisionNo := by
  rw [latestVersion_eq_foldl]; exact foldl_pickLatest_max t h

theorem latestVersion_first (h : Document) (t : List Document) :
    ∃ l₁ l₂, h :: t = l₁ ++ latestVersion h t :: l₂ ∧
      ∀ x ∈ l₁, x.revisionNo < (latestVersion h t).revisionNo := by
  rw [latestVersion_eq_foldl]; exact foldl_pickLatest_first t h

/-- Outcome of a workflow transition route (approve/decline/issue):
the routes answer 404 when the document id does not resolve, otherwise
200 with the updated document. -/
inductive WfRes where
  | notFound
  | ok
deriving DecidableEq

/-- Outcome of POST /api/documents (creation). -/
inductive CreateRes where
  | validationError
  | created (docId : String)
deriving DecidableEq

/-- Outcome of the distribution routes GET /api/documents/:id/pdf and
POST /api/documents/:id/print. -/
inductive DistRes where
  | userNotFound
  | docNotFound
  | noIssuedVersions
  | accessDenied
  | versionNotFound
  | notIssued
  | noWordFile
  | served (docId : String) (copyNumber : Nat)
  | renderError
deriving DecidableEq

/-- Outcome of GET /api/documents/:docNumber/versions. The 200 payload is a
JSON array whose entries may be null (`none`), exactly as produced by
`res.json([latestVersion])` when the reduce of an empty array yields
undefined. -/
inductive VersionsRes where
  | userNotFound
  | ok (versions : List (Option Document))
deriving DecidableEq

/-- POST /api/documents/:id/approve (routes.ts lines 212-256). The route
performs no validation of `approvalRemarks`: it looks the document up,
unconditionally merges status "approved" with the approval fields, assigns
departments when a non-empty list is supplied, then notifies every issuer
and the preparer. -/
def approveHandler (s : Store) (docId approvalRemarks approvedBy : String)
    (approverName : String) (departments : List String) (now : Nat) :
    WfRes × Store :=
  match getDocument s docId with
  | none => (.notFound, s)
  | some document =>
    let approverFullName :=
      match getUser s approvedBy with
      | some u => u.fullName
      | none => ""
    let finalApproverName := jsOr approverName (jsOr approverFullName "Unknown")
    let s1 := updateDocument s docId (fun d =>
      { d with status := "approved", approvalRemarks := some approvalRemarks,
               approvedBy := some approvedBy, approvedAt := some now })
    let s2 :=
      if departments.length > 0 then
        { s1 with docDepartments :=
            s1.docDepartments ++ departments.map (fun dep => (docId, dep)) }
      else s1
    let issuers := getUsersByRole s2 "issuer"
    let s3 := issuers.foldl (fun st issuer =>
      createNotification st issuer.id docId
        ("Document \"" ++ document.docName ++ "\" (" ++ document.docNumber ++
         ") has been approved by " ++ finalApproverName ++ ". Remarks: \"" ++
         approvalRemarks ++ "\"")
        "approved_document") s2
    let s4 := createNotification s3 document.preparedBy docId
      ("Your document \"" ++ document.docName ++ "\" (" ++ document.docNumber ++
       ") has been approved by " ++ finalApproverName)
      "document_status_update"
    (.ok, s4)

/-- POST /api/documents/:id/decline (routes.ts lines 258-285). The route
merges status "declined" with the decline remarks, clears approvedBy and
issuedBy, and notifies the preparer. -/
def declineHandler (s : Store) (docId declineRemarks : String) :
    WfRes × Store :=
  match getDocument s docId with
  | none => (.notFound, s)
  | some document =>
    let s1 := updateDocument s docId (fun d =>
      { d with status := "declined", declineRemarks := some declineRemarks,
               approvedBy := none, issuedBy := none })
    let s2 := createNotification s1 document.preparedBy docId
      ("Your document \"" ++ document.docName ++ "\" (" ++ document.docNumber ++
       ") has been declined by issuer. Remarks: " ++ declineRemarks ++
       ". Please review and resubmit.")
      "document_declined"
    (.ok, s2)

/-- POST /api/documents/:id/issue (routes.ts lines 287-324). The route
performs no status precondition check: it looks the document up,
unconditionally merges status "issued" with the issue fields, notifies the
preparer, and notifies the approver when approvedBy is set. -/
def issueHandler (s : Store) (docId issuedBy issuerName remarks : String)
    (now : Nat) : WfRes × Store :=
  match getDocument s docId with
  | none => (.notFound, s)
  | some document =>
    let s1 := updateDocument s docId (fun d =>
      { d with status := "issued", issuedBy := some issuedBy,
               issuerName := some issuerName, issueRemarks := some remarks,
               issuedAt := some now })
    let s2 := createNotification s1 document.preparedBy docId
      ("Your document \"" ++ document.docName ++ "\" (" ++ document.docNumber ++
       ") has been issued by " ++ issuerName)
      "document_issued"
    let s3 :=
      match document.approvedBy with
      | some approverId =>
        createNotification s2 approverId docId
          ("Document \"" ++ document.docName ++ "\" (" ++ document.docNumber ++
           ") has been issued")
          "document_issued"
      | none => s2
    (.ok, s3)

/-- Input of document creation, after the route-level file validation and
the header/footer extraction performed by the rendering collaborator. -/
structure NewDoc where
  docName : String
  docNumber : String
  revisionNo : Int
  preparedBy : String
  headerInfo : String
  footerInfo : String
  wordFilePath : String
deriving DecidableEq

/-- Modelled from the spec: storage.createDocument is not under src/ (only
its caller in routes.ts is). Per section 4.1 of the spec it creates a new
row at status "pending" and fails with a ValidationError when revisionNo
duplicates an existing row for the same docNumber. -/
def createDocument (s : Store) (nd : NewDoc) :
    Except String (Document × Store) :=
  if s.documents.any (fun d =>
      d.docNumber == nd.docNumber && d.revisionNo == nd.revisionNo) then
    .error "ValidationError: duplicate revisionNo for docNumber"
  else
    let d : Document :=
      { id := "doc" ++ toString s.documents.length, docName := nd.docName,
        docNumber := nd.docNumber, revisionNo := nd.revisionNo,
        status := "pending", preparedBy := nd.preparedBy }
    .ok (d, { s with documents := s.documents ++ [d] })

/-- POST /api/documents (routes.ts lines 145-210): create the row, record
the uploaded word file path on it, then notify every approver. -/
def createHandler (s : Store) (nd : NewDoc) : CreateRes × Store :=
  match createDocument s nd with
  | .error _ => (.validationError, s)
  | .ok (d, s1) =>
    let s2 := updateDocument s1 d.id (fun doc =>
      { doc with wordFilePath := some nd.wordFilePath })
    let approvers := getUsersByRole s2 "approver"
    let s3 := approvers.foldl (fun st approver =>
      createNotification st approver.id d.id
        ("New document \"" ++ d.docName ++ "\" (" ++ d.docNumber ++
         ") is ready for your approval")
        "new_document") s2
    (.created d.id, s3)

/-- The version access policy block shared verbatim by the pdf and print
routes (routes.ts lines 506-528 and 598-620), run against the non-empty
issued revision set `h :: t` of the addressed document's docNumber: an
explicit version requires masterCopyAccess and must exist in the set; an
omitted version keeps the addressed document, rejected when the caller
lacks masterCopyAccess and the document is not the resolved latest. -/
def resolveRequested (s : Store) (user : User) (document : Document)
    (h : Document) (t : List Document) (version : Option Int) :
    Except DistRes Document :=
  match version with
  | some v =>
    if !user.masterCopyAccess then .error .accessDenied
    else
      match (h :: t).find? (fun d => d.revisionNo == v) with
      | none => .error .versionNotFound
      | some requestedDoc =>
        .ok ((getDocument s requestedDoc.id).getD requestedDoc)
  | none =>
    if !user.masterCopyAccess && document.id != (latestVersion h t).id then
      .error .accessDenied
    else .ok document

/-- GET /api/documents/:id/pdf (routes.ts lines 476-566). A ControlCopy row
is committed before the rendering step; a rendering failure surfaces as a
500 without rollback. -/
def pdfHandler (s : Store) (docId userId : String) (version : Option Int)
    (renderOk : Bool) (now : Nat) : DistRes × Store :=
  match getUser s userId with
  | none => (.userNotFound, s)
  | some user =>
    match getDocument s docId with
    | none => (.docNotFound, s)
    | some document =>
      match issuedVersions s document.docNumber with
      | [] => (.noIssuedVersions, s)
      | h :: t =>
        match resolveRequested s user document h t version with
        | .error e => (e, s)
        | .ok doc =>
          if doc.status != "issued" then (.notIssued, s)
          else
            match doc.wordFilePath with
            | none => (.noWordFile, s)
            | some _ =>
              let p := createControlCopy s doc.id userId "view" now
              if renderOk then (.served doc.id p.1.copyNumber, p.2)
              else (.renderError, p.2)

/-- POST /api/documents/:id/print (routes.ts lines 568-665). Same resolution
and access policy as the pdf route; additionally commits a PrintLog row
referencing the new ControlCopy before the rendering step. -/
def printHandler (s : Store) (docId userId : String) (version : Option Int)
    (renderOk : Bool) (now : Nat) : DistRes × Store :=
  match getUser s userId with
  | none => (.userNotFound, s)
  | some user =>
    match getDocument s docId with
    | none => (.docNotFound, s)
    | some document =>
      match issuedVersions s document.docNumber with
      | [] => (.noIssuedVersions, s)
      | h :: t =>
        match resolveRequested s user document h t version with
        | .error e => (e, s)
        | .ok doc =>
          if doc.status != "issued" then (.notIssued, s)
          else
            match doc.wordFilePath with
            | none => (.noWordFile, s)
            | some _ =>
              let p := createControlCopy s doc.id userId "print" now
              let q := createPrintLog p.2 doc.id userId p.1.id "PDF"
              if renderOk then (.served doc.id p.1.copyNumber, q.2)
              else (.renderError, q.2)

/-- GET /api/documents/:docNumber/versions (routes.ts lines 704-731).
Master-access callers receive every issued revision; others receive a
one-element array holding the reduce of the revision set, which on an empty
set is the JavaScript undefined (serialized as null). -/
def versionsHandler (s : Store) (docNumber userId : String) : VersionsRes :=
  match getUser s userId with
  | none => .userNotFound
  | some user =>
    let documentVersions := issuedVersions s docNumber
    if user.masterCopyAccess then .ok (documentVersions.map some)
    else
      let latest : Option Document :=
        match documentVersions with
        | [] => none
        | h :: t => some (latestVersion h t)
      .ok [latest]

/-- storage.markNotificationAsRead. -/
def markNotificationAsRead (s : Store) (notifId : String) : Store :=
  { s with notifications := s.notifications.map (fun n =>
      if n.id == notifId then { n with read := true } else n) }

/-- storage.createUser (POST /api/users). -/
def addUser (s : Store) (u : User) : Store :=
  { s with users := s.users ++ [u] }

/-- One externally triggerable operation of the engine. -/
inductive Op where
  | create (nd : NewDoc)
  | approve (docId remarks approvedBy approverName : String)
      (departments : List String) (now : Nat)
  | decline (docId remarks : String)
  | issue (docId issuedBy issuerName remarks : String) (now : Nat)
  | view (docId userId : String) (version : Option Int) (renderOk : Bool)
      (now : Nat)
  | printOp (docId userId : String) (version : Option Int) (renderOk : Bool)
      (now : Nat)
  | newUser (u : User)
  | markRead (notifId : String)

/-- The store after one operation. -/
def step (s : Store) : Op → Store
  | .create nd => (createHandler s nd).2
  | .approve docId remarks approvedBy approverName departments now =>
    (approveHandler s docId remarks approvedBy approverName departments now).2
  | .decline docId remarks => (declineHandler s docId remarks).2
  | .issue docId issuedBy issuerName remarks now =>
    (issueHandler s docId issuedBy issuerName remarks now).2
  | .view docId userId version renderOk now =>
    (pdfHandler s docId userId version renderOk now).2
  | .printOp docId userId version renderOk now =>
    (printHandler s docId userId version renderOk now).2
  | .newUser u => addUser s u
  | .markRead notifId => markNotificationAsRead s notifId

/-- A sequence of successive control-copy issuances against one document id:
each request carries the acting user, the action type and a timestamp. -/
def issueCopies (s : Store) (docId : String) :
    List (String × String × Nat) → List ControlCopy × Store
  | [] => ([], s)
  | (u, a, t) :: rest =>
    let p := createControlCopy s docId u a t
    let q := issueCopies p.2 docId rest
    (p.1 :: q.1, q.2)

/-- The documents-with-distinct-(docNumber, revisionNo) invariant of the
store. -/
def docRevUnique (s : Store) : Prop :=
  s.documents.Pairwise
    (fun a b => a.docNumber = b.docNumber → a.revisionNo ≠ b.revisionNo)

theorem createNotification_documents (s : Store) (a b c d : String) :
    (createNotification s a b c d).documents = s.documents := rfl

theorem createNotification_users (s : Store) (a b c d : String) :
    (createNotification s a b c d).users = s.users := rfl

theorem createNotification_controlCopies (s : Store) (a b c d : String) :
    (createNotification s a b c d).controlCopies = s.controlCopies := rfl

theorem createNotification_userIds (s : Store) (a b c d : String) :
    (createNotification s a b c d).notifications.map (fun n => n.userId) =
      s.notifications.map (fun n => n.userId) ++ [a] := by
  simp [createNotification]

theorem updateDocument_notifications (s : Store) (docId : String)
    (f : Document → Document) :
    (updateDocument s docId f).notifications = s.notifications := rfl

theorem updateDocument_users (s : Store) (docId : String)
    (f : Document → Document) :
    (updateDocument s docId f).users = s.users := rfl

theorem updateDocument_documents (s : Store) (docId : String)
    (f : Document → Document) :
    (updateDocument s docId f).documents =
      s.documents.map (fun d => if d.id == docId then f d else d) := rfl

theorem foldl_notify_userIds (docId msg ty : String) :
    ∀ (l : List User) (st : Store),
      ((l.foldl (fun st u => createNotification st u.id docId msg ty)
        st).notifications.map (fun n => n.userId)) =
      st.notifications.map (fun n => n.userId) ++ l.map (fun u => u.id) := by
  intro l
  induction l with
  | nil => intro st; simp
  | cons u l ih =>
    intro st
    simp only [List.foldl_cons, List.map_cons]
    rw [ih, createNotification_userIds, List.append_assoc]
    simp

theorem foldl_notify_documents (docId msg ty : String) :
    ∀ (l : List User) (st : Store),
      (l.foldl (fun st u => createNotification st u.id docId msg ty)
        st).documents = st.documents := by
  intro l
  induction l with
  | nil => intro st; rfl
  | cons u l ih => intro st; simp only [List.foldl_cons]; rw [ih]; rfl

theorem foldl_notify_users (docId msg ty : String) :
    ∀ (l : List User) (st : Store),
      (l.foldl (fun st u => createNotification st u.id docId msg ty)
        st).users = st.users := by
  intro l
  induction l with
  | nil => intro st; rfl
  | cons u l ih => intro st; simp only [List.foldl_cons]; rw [ih]; rfl

theorem foldl_notify_controlCopies (docId msg ty : String) :
    ∀ (l : List User) (st : Store),
      (l.foldl (fun st u => createNotification st u.id docId msg ty)
        st).controlCopies = st.controlCopies := by
  intro l
  induction l with
  | nil => intro st; rfl
  | cons u l ih => intro st; simp only [List.foldl_cons]; rw [ih]; rfl

/-! Concrete fixtures used by witnesses and counterexamples. -/

def uCreator : User := { id := "u1", role := "creator", fullName := "Cara Creator" }

def uApprover : User := { id := "u2", role := "approver", fullName := "Ana Approver" }

def uIssuer : User := { id := "u3", role := "issuer", fullName := "Ivan Issuer" }

def uRecipient : User := { id := "u4", role := "recipient", fullName := "Rita Recipient" }

def uMaster : User :=
  { id := "u5", role := "admin", fullName := "Mona Master", masterCopyAccess := true }

def dPending : Document :=
  { id := "d1", docName := "Quality Manual", docNumber := "QA-001", revisionNo := 0,
    status := "pending", preparedBy := "u1", wordFilePath := some "uploads/d1.docx" }

/-- A store holding one pending document and the five seeded users. -/
def wfStore : Store :=
  { users := [uCreator, uApprover, uIssuer, uRecipient, uMaster],
    documents := [dPending] }

def dIssued0 : Document :=
  { id := "v0", docName := "Quality Manual", docNumber := "QA-001", revisionNo := 0,
    status := "issued", preparedBy := "u1", wordFilePath := some "uploads/v0.docx" }

def dIssued1 : Document :=
  { id := "v1", docName := "Quality Manual", docNumber := "QA-001", revisionNo := 1,
    status := "issued", preparedBy := "u1", wordFilePath := some "uploads/v1.docx" }

/-- A store holding issued revisions 0 and 1 of docNumber QA-001
(Example A of the spec), a non-master user u4 and a master user u5. -/
def distStore : Store :=
  { users := [uRecipient, uMaster], documents := [dIssued0, dIssued1] }

def dApprovedSelf : Document :=
  { id := "d2", docName := "Ops Manual", docNumber := "OPS-001", revisionNo := 0,
    status := "approved", preparedBy := "u1", approvedBy := some "u1" }

/-- A store where the approver recorded on the document is the preparer. -/
def dupNotifStore : Store :=
  { users := [uCreator, uApprover, uIssuer], documents := [dApprovedSelf] }

def dTie0 : Document :=
  { id := "t0", docName := "Tie", docNumber := "T-1", revisionNo := 5,
    status := "issued", preparedBy := "u1" }

def dTie1 : Document :=
  { id := "t1", docName := "Tie", docNumber := "T-1", revisionNo := 5,
    status := "issued", preparedBy := "u1" }

/-- C9: the latest-version resolver used by the pdf, print and versions
routes is total on every non-empty revision set and deterministic in the
listing order: it returns the first listed row attaining the maximal
revisionNo — it is a member of the set, no revisionNo in the set exceeds
its own, and every row listed before it has a strictly smaller revisionNo
(so on a tie at the maximum the earliest listed row wins and the resolver
never fails). -/
theorem latestVersion_first_max (h : Document) (t : List Document) :
    latestVersion h t ∈ h :: t ∧
    (∀ x ∈ h :: t, x.revisionNo ≤ (latestVersion h t).revisionNo) ∧
    ∃ l₁ l₂, h :: t = l₁ ++ latestVersion h t :: l₂ ∧
      ∀ x ∈ l₁, x.revisionNo < (latestVersion h t).revisionNo :=
  ⟨latestVersion_mem h t, latestVersion_max h t, latestVersion_first h t⟩

/-- Witness for C9 on a concrete tie: both rows of docNumber T-1 carry
revisionNo 5 and the resolver returns the first listed row. -/
theorem latestVersion_first_max_witness :
    latestVersion dTie0 [dTie1] ∈ dTie0 :: [dTie1] ∧
    dTie1.revisionNo ≤ (latestVersion dTie0 [dTie1]).revisionNo ∧
    latestVersion dTie0 [dTie1] = dTie0 :=
  ⟨(latestVersion_first_max dTie0 [dTie1]).1,
   (latestVersion_first_max dTie0 [dTie1]).2.1 dTie1 (by simp),
   by decide⟩

/-- C10: for an existing user without masterCopyAccess, requesting the
version list of a docNumber with zero issued revisions answers 200 with a
one-element array whose single entry is null (the JavaScript reduce of the
empty revision set, seeded with the undefined element 0), rather than a
404 or an empty list. -/
theorem versions_empty_set_null_list (s : Store) (docNumber userId : String)
    (user : User) (hu : getUser s userId = some user)
    (hm : user.masterCopyAccess = false)
    (hv : issuedVersions s docNumber = []) :
    versionsHandler s docNumber userId = .ok [none] := by
  simp only [versionsHandler, hu, hv, hm]
  rfl

/-- Witness for C10: user u4 (no master access) lists versions of QA-001 in
a store where no revision of QA-001 is issued. -/
theorem versions_empty_set_null_list_witness :
    versionsHandler wfStore "QA-001" "u4" = .ok [none] :=
  versions_empty_set_null_list wfStore "QA-001" "u4" uRecipient (by decide)
    (by decide) (by decide)

theorem copyCount_createControlCopy (s : Store) (docId u a : String) (t : Nat) :
    copyCount (createControlCopy s docId u a t).2 docId = copyCount s docId + 1 := by
  simp [copyCount, createControlCopy]

theorem createControlCopy_copyNumber (s : Store) (docId u a : String) (t : Nat) :
    (createControlCopy s docId u a t).1.copyNumber = copyCount s docId + 1 := rfl

theorem issueCopies_map_copyNumber (docId : String) :
    ∀ (reqs : List (String × String × Nat)) (s : Store),
      (issueCopies s docId reqs).1.map (fun c => c.copyNumber) =
        List.range' (copyCount s docId + 1) reqs.length := by
  intro reqs
  induction reqs with
  | nil => intro s; simp [issueCopies]
  | cons r rest ih =>
    intro s
    obtain ⟨u, a, t⟩ := r
    simp only [issueCopies, List.map_cons, List.length_cons]
    rw [List.range'_succ, createControlCopy_copyNumber, ih,
      copyCount_createControlCopy]

/-- C1: for every store, every document id and every sequence of m
successive control-copy issuances against that id (with k copies already
issued there), the returned copyNumber values are exactly the consecutive
integers k+1, ..., k+m in order — each appearing exactly once, no
duplicates, no gaps, strictly increasing. -/
theorem controlCopy_numbers_exact_range (s : Store) (docId : String)
    (reqs : List (String × String × Nat)) :
    (issueCopies s docId reqs).1.map (fun c => c.copyNumber) =
      List.range' (copyCount s docId + 1) reqs.length ∧
    ((issueCopies s docId reqs).1.map (fun c => c.copyNumber)).Pairwise (· < ·) := by
  refine ⟨issueCopies_map_copyNumber docId reqs s, ?_⟩
  rw [issueCopies_map_copyNumber docId reqs s]
  exact List.pairwise_lt_range' _ _ 1

theorem find?_doc_fields (s : Store) (docId : String) (d : Document)
    (hd : getDocument s docId = some d) :
    d ∈ s.documents ∧ (d.id == docId) = true := by
  have hd' : List.find? (fun x => x.id == docId) s.documents = some d := hd
  exact ⟨List.mem_of_find?_eq_some hd', by simpa using List.find?_some hd'⟩

/-- C6: decline on a found document (here from Pending or Approved) answers
ok, stamps status "declined" clearing approvedBy and issuedBy on every row
carrying the document id, and creates exactly one notification, addressed
to the document's preparer. -/
theorem decline_clears_and_notifies_preparer (s : Store) (docId remarks : String)
    (d : Document) (hd : getDocument s docId = some d)
    (_hst : d.status = "pending" ∨ d.status = "approved") :
    (declineHandler s docId remarks).1 = .ok ∧
    (∀ d' ∈ (declineHandler s docId remarks).2.documents, d'.id = docId →
      d'.status = "declined" ∧ d'.approvedBy = none ∧ d'.issuedBy = none) ∧
    ∃ n, (declineHandler s docId remarks).2.notifications =
      s.notifications ++ [n] ∧ n.userId = d.preparedBy := by
  simp only [declineHandler, hd]
  refine ⟨trivial, ?_, ?_⟩
  · intro d' hmem hid
    rw [createNotification_documents, updateDocument_documents] at hmem
    obtain ⟨x, hx, hgx⟩ := List.mem_map.mp hmem
    by_cases hxid : (x.id == docId) = true
    · rw [if_pos hxid] at hgx
      subst hgx
      exact ⟨rfl, rfl, rfl⟩
    · rw [if_neg hxid] at hgx
      subst hgx
      exact absurd hid (by simpa using hxid)
  · refine ⟨{ id := "n" ++ toString s.notifications.length,
              userId := d.preparedBy, documentId := docId,
              message := "Your document \"" ++ d.docName ++ "\" (" ++
                d.docNumber ++ ") has been declined by issuer. Remarks: " ++
                remarks ++ ". Please review and resubmit.",
              ntype := "document_declined" }, ?_, ?_⟩
    · rfl
    · rfl

/-- Witness for C6: declining the pending document d1 of wfStore. -/
theorem decline_clears_and_notifies_preparer_witness :
    (declineHandler wfStore "d1" "not ready").1 = .ok ∧
    (∀ d' ∈ (declineHandler wfStore "d1" "not ready").2.documents,
      d'.id = "d1" →
      d'.status = "declined" ∧ d'.approvedBy = none ∧ d'.issuedBy = none) ∧
    ∃ n, (declineHandler wfStore "d1" "not ready").2.notifications =
      wfStore.notifications ++ [n] ∧ n.userId = dPending.preparedBy :=
  decline_clears_and_notifies_preparer wfStore "d1" "not ready" dPending
    (by decide) (Or.inl (by decide))

/-- Counterexample to C2 as stated: the issue route has no status
precondition — calling issue on the Pending document d1 answers ok (not
PreconditionFailed) and mutates the row to Issued with the issue fields
set. -/
theorem issue_pending_succeeds_cex :
    (issueHandler wfStore "d1" "u3" "Ivan Issuer" "ship it" 7).1 = .ok ∧
    getDocument (issueHandler wfStore "d1" "u3" "Ivan Issuer" "ship it" 7).2 "d1" =
      some { dPending with
             status := "issued", issuedBy := some "u3",
             issuerName := some "Ivan Issuer", issueRemarks := some "ship it",
             issuedAt := some 7 } := by
  exact ⟨rfl, by decide⟩

/-- C2 (amended): the issue route checks only that the document id
resolves; for every found document — whatever its current status,
Approved or not — it answers ok and writes status "issued" together with
issuedBy, issuerName, issueRemarks and issuedAt, leaving the other fields
of the row as they were. -/
theorem issue_no_status_precondition (s : Store)
    (docId issuedBy issuerName remarks : String) (now : Nat) (d : Document)
    (hd : getDocument s docId = some d) :
    (issueHandler s docId issuedBy issuerName remarks now).1 = .ok ∧
    { d with
      status := "issued", issuedBy := some issuedBy,
      issuerName := some issuerName, issueRemarks := some remarks,
      issuedAt := some now } ∈
      (issueHandler s docId issuedBy issuerName remarks now).2.documents := by
  obtain ⟨hmem, hid⟩ := find?_doc_fields s docId d hd
  simp only [issueHandler, hd]
  refine ⟨trivial, ?_⟩
  cases hab : d.approvedBy with
  | none =>
    simp only [createNotification_documents, updateDocument_documents]
    exact List.mem_map.mpr ⟨d, hmem, by rw [if_pos hid, hab]⟩
  | some a =>
    simp only [createNotification_documents, updateDocument_documents]
    exact List.mem_map.mpr ⟨d, hmem, by rw [if_pos hid, hab]⟩

/-- Witness for C2 (amended) at the Pending document d1 of wfStore. -/
theorem issue_no_status_precondition_witness :
    (issueHandler wfStore "d1" "u3" "Ivan Issuer" "ok" 3).1 = .ok ∧
    { dPending with
      status := "issued", issuedBy := some "u3",
      issuerName := some "Ivan Issuer", issueRemarks := some "ok",
      issuedAt := some 3 } ∈
      (issueHandler wfStore "d1" "u3" "Ivan Issuer" "ok" 3).2.documents :=
  issue_no_status_precondition wfStore "d1" "u3" "Ivan Issuer" "ok" 3 dPending
    (by decide)

/-- Counterexample to C3 as stated: the approve route validates nothing —
approving the Pending document d1 with empty remarks answers ok (not
ValidationError), mutates the row to Approved, and creates two
notifications (one to the issuer u3, one to the preparer u1). -/
theorem approve_empty_remarks_succeeds_cex :
    (approveHandler wfStore "d1" "" "u2" "" [] 5).1 = .ok ∧
    getDocument (approveHandler wfStore "d1" "" "u2" "" [] 5).2 "d1" =
      some { dPending with
             status := "approved", approvalRemarks := some "",
             approvedBy := some "u2", approvedAt := some 5 } ∧
    (approveHandler wfStore "d1" "" "u2" "" [] 5).2.notifications.length = 2 := by
  refine ⟨rfl, by decide, rfl⟩

/-- C3 (amended): the approve route checks only that the document id
resolves; for every found document and any remarks — the empty string
included — and any approvedBy — resolvable or not — it answers ok, writes
status "approved" together with approvalRemarks, approvedBy and
approvedAt, and creates notifications addressed to every user with role
issuer and to the preparer. -/
theorem approve_no_remarks_validation (s : Store)
    (docId remarks approvedBy approverName : String)
    (departments : List String) (now : Nat) (d : Document)
    (hd : getDocument s docId = some d) :
    (approveHandler s docId remarks approvedBy approverName departments now).1 = .ok ∧
    { d with
      status := "approved", approvalRemarks := some remarks,
      approvedBy := some approvedBy, approvedAt := some now } ∈
      (approveHandler s docId remarks approvedBy approverName departments now).2.documents ∧
    (approveHandler s docId remarks approvedBy approverName departments
        now).2.notifications.map (fun n => n.userId) =
      s.notifications.map (fun n => n.userId) ++
      (getUsersByRole s "issuer").map (fun u => u.id) ++ [d.preparedBy] := by
  obtain ⟨hmem, hid⟩ := find?_doc_fields s docId d hd
  simp only [approveHandler, hd]
  refine ⟨trivial, ?_, ?_⟩
  · rw [createNotification_documents, foldl_notify_documents]
    split <;> exact List.mem_map.mpr ⟨d, hmem, by rw [if_pos hid]⟩
  · rw [createNotification_userIds, foldl_notify_userIds]
    split <;> rfl

/-- Witness for C3 (amended): approving d1 of wfStore with empty remarks
succeeds, mutates the row, and notifies the issuer u3 and the preparer u1. -/
theorem approve_no_remarks_validation_witness :
    (approveHandler wfStore "d1" "" "u2" "" [] 5).1 = .ok ∧
    { dPending with
      status := "approved", approvalRemarks := some "",
      approvedBy := some "u2", approvedAt := some 5 } ∈
      (approveHandler wfStore "d1" "" "u2" "" [] 5).2.documents ∧
    (approveHandler wfStore "d1" "" "u2" "" []
        5).2.notifications.map (fun n => n.userId) =
      wfStore.notifications.map (fun n => n.userId) ++
      (getUsersByRole wfStore "issuer").map (fun u => u.id) ++
      [dPending.preparedBy] :=
  approve_no_remarks_validation wfStore "d1" "" "u2" "" [] 5 dPending (by decide)

/-- Counterexample to C5 as stated: targets are not de-duplicated. In
dupNotifStore the document d2 was prepared and approved by the same user
u1; issuing it creates two notifications to u1 for the single transition. -/
theorem issue_duplicate_notification_cex :
    ((issueHandler dupNotifStore "d2" "u3" "Ivan Issuer" "done"
      9).2.notifications.filter (fun n => n.userId == "u1")).length = 2 := by
  decide

/-- C5 (amended): per transition the notification targets form exactly the
dispatcher table read as a multiset, with no de-duplication — create:
every user with role approver; approve: every user with role issuer, then
the preparer; decline: the preparer only; issue: the preparer, then the
approver iff approvedBy is set. No user outside the table is notified, but
a user matched by two table rows receives two notifications. -/
theorem notification_targets_no_dedup (s : Store) :
    (∀ nd : NewDoc,
      (s.documents.any (fun d => d.docNumber == nd.docNumber &&
        d.revisionNo == nd.revisionNo)) = false →
      (createHandler s nd).2.notifications.map (fun n => n.userId) =
        s.notifications.map (fun n => n.userId) ++
        (getUsersByRole s "approver").map (fun u => u.id)) ∧
    (∀ (docId remarks approvedBy approverName : String)
      (departments : List String) (now : Nat) (d : Document),
      getDocument s docId = some d →
      (approveHandler s docId remarks approvedBy approverName departments
        now).2.notifications.map (fun n => n.userId) =
        s.notifications.map (fun n => n.userId) ++
        (getUsersByRole s "issuer").map (fun u => u.id) ++ [d.preparedBy]) ∧
    (∀ (docId remarks : String) (d : Document),
      getDocument s docId = some d →
      (declineHandler s docId remarks).2.notifications.map (fun n => n.userId) =
        s.notifications.map (fun n => n.userId) ++ [d.preparedBy]) ∧
    (∀ (docId issuedBy issuerName remarks : String) (now : Nat) (d : Document),
      getDocument s docId = some d →
      (issueHandler s docId issuedBy issuerName remarks
        now).2.notifications.map (fun n => n.userId) =
        s.notifications.map (fun n => n.userId) ++ [d.preparedBy] ++
        d.approvedBy.toList) := by
  refine ⟨?_, ?_, ?_, ?_⟩
  · intro nd hdup
    simp only [createHandler, createDocument, hdup, Bool.false_eq_true,
      if_false]
    rw [foldl_notify_userIds]
    rfl
  · intro docId remarks approvedBy approverName departments now d hd
    simp only [approveHandler, hd]
    rw [createNotification_userIds, foldl_notify_userIds]
    split <;> rfl
  · intro docId remarks d hd
    simp only [declineHandler, hd]
    rw [createNotification_userIds]
    rfl
  · intro docId issuedBy issuerName remarks now d hd
    simp only [issueHandler, hd]
    cases hab : d.approvedBy with
    | none =>
      rw [createNotification_userIds, updateDocument_notifications]
      simp
    | some a =>
      rw [createNotification_userIds, createNotification_userIds,
        List.append_assoc, List.append_assoc]
      rfl

/-- A fresh creation request (no duplicate revision in wfStore). -/
def ndExample : NewDoc :=
  { docName := "New SOP", docNumber := "SOP-9", revisionNo := 0,
    preparedBy := "u1", headerInfo := "H", footerInfo := "F",
    wordFilePath := "uploads/new.docx" }

/-- Witness for C5 (amended): the four transitions evaluated on wfStore. -/
theorem notification_targets_no_dedup_witness :
    ((createHandler wfStore ndExample).2.notifications.map (fun n => n.userId) =
      wfStore.notifications.map (fun n => n.userId) ++
      (getUsersByRole wfStore "approver").map (fun u => u.id)) ∧
    ((approveHandler wfStore "d1" "fine" "u2" "Ana Approver" []
        4).2.notifications.map (fun n => n.userId) =
      wfStore.notifications.map (fun n => n.userId) ++
      (getUsersByRole wfStore "issuer").map (fun u => u.id) ++
      [dPending.preparedBy]) ∧
    ((declineHandler wfStore "d1" "no").2.notifications.map (fun n => n.userId) =
      wfStore.notifications.map (fun n => n.userId) ++ [dPending.preparedBy]) ∧
    ((issueHandler wfStore "d1" "u3" "Ivan Issuer" "ok"
        6).2.notifications.map (fun n => n.userId) =
      wfStore.notifications.map (fun n => n.userId) ++ [dPending.preparedBy] ++
      dPending.approvedBy.toList) :=
  ⟨(notification_targets_no_dedup wfStore).1 ndExample (by decide),
   (notification_targets_no_dedup wfStore).2.1 "d1" "fine" "u2" "Ana Approver"
     [] 4 dPending (by decide),
   (notification_targets_no_dedup wfStore).2.2.1 "d1" "no" dPending (by decide),
   (notification_targets_no_dedup wfStore).2.2.2 "d1" "u3" "Ivan Issuer" "ok" 6
     dPending (by decide)⟩

theorem resolveRequested_some_nonmaster (s : Store) (user : User)
    (document h : Document) (t : List Document) (v : Int)
    (hm : user.masterCopyAccess = false) :
    resolveRequested s user document h t (some v) = .error .accessDenied := by
  simp [resolveRequested, hm]

theorem resolveRequested_none_notLatest (s : Store) (user : User)
    (document h : Document) (t : List Document)
    (hm : user.masterCopyAccess = false)
    (hne : document.id ≠ (latestVersion h t).id) :
    resolveRequested s user document h t none = .error .accessDenied := by
  simp [resolveRequested, hm, hne]

theorem resolveRequested_none_self (s : Store) (user : User)
    (document h : Document) (t : List Document)
    (hid : document.id = (latestVersion h t).id) :
    resolveRequested s user document h t none = .ok document := by
  simp [resolveRequested, hid]

/-- Counterexample to C4 as stated: non-master user u4 explicitly requests
revision 1 of QA-001 — the latest issued revision — and is rejected with
AccessDenied by both the pdf and the print route, where the claim says an
explicit revisionNo equal to the latest is permitted and served. -/
theorem explicit_latest_version_denied_cex :
    (pdfHandler distStore "v1" "u4" (some 1) true 0).1 = .accessDenied ∧
    (printHandler distStore "v1" "u4" (some 1) true 0).1 = .accessDenied :=
  ⟨rfl, rfl⟩

/-- C4 (amended): for a user without masterCopyAccess against a docNumber
with a non-empty issued revision set, every explicit revisionNo — equal to
the latest or not — is rejected with AccessDenied; an omitted revisionNo
does not re-resolve to the latest revision: it serves the addressed
document itself when that document is the resolved latest (and is issued
with a stored word file), and is rejected with AccessDenied otherwise. -/
theorem version_policy_non_master (s : Store) (docId userId : String)
    (r : Bool) (now : Nat) (user : User) (doc : Document)
    (hu : getUser s userId = some user) (hm : user.masterCopyAccess = false)
    (hd : getDocument s docId = some doc) (h : Document) (t : List Document)
    (hv : issuedVersions s doc.docNumber = h :: t) :
    (∀ v : Int, (pdfHandler s docId userId (some v) r now).1 = .accessDenied ∧
      (printHandler s docId userId (some v) r now).1 = .accessDenied) ∧
    (doc.id ≠ (latestVersion h t).id →
      (pdfHandler s docId userId none r now).1 = .accessDenied ∧
      (printHandler s docId userId none r now).1 = .accessDenied) ∧
    (doc.id = (latestVersion h t).id → doc.status = "issued" →
      ∀ p, doc.wordFilePath = some p →
      (pdfHandler s docId userId none true now).1 =
        .served doc.id (copyCount s doc.id + 1) ∧
      (printHandler s docId userId none true now).1 =
        .served doc.id (copyCount s doc.id + 1)) := by
  refine ⟨?_, ?_, ?_⟩
  · intro v
    constructor
    · simp [pdfHandler, hu, hd, hv,
        resolveRequested_some_nonmaster s user doc h t v hm]
    · simp [printHandler, hu, hd, hv,
        resolveRequested_some_nonmaster s user doc h t v hm]
  · intro hne
    constructor
    · simp [pdfHandler, hu, hd, hv,
        resolveRequested_none_notLatest s user doc h t hm hne]
    · simp [printHandler, hu, hd, hv,
        resolveRequested_none_notLatest s user doc h t hm hne]
  · intro hid hst p hw
    constructor
    · simp [pdfHandler, hu, hd, hv, hst, hw, createControlCopy,
        resolveRequested_none_self s user doc h t hid]
    · simp [printHandler, hu, hd, hv, hst, hw, createControlCopy,
        resolveRequested_none_self s user doc h t hid]

/-- Witness for C4 (amended) on distStore: u4 (no master access) against
QA-001 whose issued revisions are 0 and 1; an explicit version 1 request
on the latest row v1 is denied, while omitting the version serves v1. -/
theorem version_policy_non_master_witness :
    ((pdfHandler distStore "v1" "u4" (some 1) true 0).1 = .accessDenied ∧
     (printHandler distStore "v1" "u4" (some 1) true 0).1 = .accessDenied) ∧
    ((pdfHandler distStore "v1" "u4" none true 0).1 =
      .served dIssued1.id (copyCount distStore dIssued1.id + 1) ∧
     (printHandler distStore "v1" "u4" none true 0).1 =
      .served dIssued1.id (copyCount distStore dIssued1.id + 1)) :=
  ⟨(version_policy_non_master distStore "v1" "u4" true 0 uRecipient dIssued1
      (by decide) (by decide) (by decide) dIssued0 [dIssued1] (by decide)).1 1,
   (version_policy_non_master distStore "v1" "u4" true 0 uRecipient dIssued1
      (by decide) (by decide) (by decide) dIssued0 [dIssued1] (by decide)).2.2
      (by decide) (by decide) "uploads/v1.docx" (by decide)⟩


theorem resolveRequested_error_not_served (s : Store) (user : User)
    (document h : Document) (t : List Document) (v : Option Int) (e : DistRes)
    (he : resolveRequested s user document h t v = .error e) :
    ∀ x n, e ≠ DistRes.served x n := by
  unfold resolveRequested at he
  repeat' split at he
  all_goals first
    | exact Except.noConfusion he
    | (injection he with he2; subst he2; intro x n hc; exact DistRes.noConfusion hc)

/-- Either the pdf route fails before the ledger commit leaving the store
untouched, or it commits the ControlCopy row and only the answer — not the
store — depends on the rendering outcome. -/
theorem pdfHandler_shape (s : Store) (docId userId : String) (v : Option Int)
    (now : Nat) :
    (∃ e, (∀ r, pdfHandler s docId userId v r now = (e, s)) ∧
      ∀ x n, e ≠ DistRes.served x n) ∨
    (∃ doc : Document, ∀ r, pdfHandler s docId userId v r now =
      (if r then DistRes.served doc.id (copyCount s doc.id + 1)
       else DistRes.renderError,
       (createControlCopy s doc.id userId "view" now).2)) := by
  simp only [pdfHandler]
  cases hu : getUser s userId with
  | none =>
    exact Or.inl ⟨.userNotFound, fun r => rfl, fun x n h => DistRes.noConfusion h⟩
  | some user =>
    try dsimp only
    cases hd : getDocument s docId with
    | none =>
      exact Or.inl ⟨.docNotFound, fun r => rfl, fun x n h => DistRes.noConfusion h⟩
    | some document =>
      try dsimp only
      cases hv : issuedVersions s document.docNumber with
      | nil =>
        exact Or.inl ⟨.noIssuedVersions, fun r => rfl,
          fun x n h => DistRes.noConfusion h⟩
      | cons h t =>
        try dsimp only
        cases hr : resolveRequested s user document h t v with
        | error e =>
          exact Or.inl ⟨e, fun r => rfl,
            resolveRequested_error_not_served s user document h t v e hr⟩
        | ok doc =>
          try dsimp only
          cases hst : doc.status != "issued" with
          | true =>
            exact Or.inl ⟨.notIssued, fun r => rfl,
              fun x n h => DistRes.noConfusion h⟩
          | false =>
            try dsimp only
            cases hw : doc.wordFilePath with
            | none =>
              exact Or.inl ⟨.noWordFile, fun r => rfl,
                fun x n h => DistRes.noConfusion h⟩
            | some p =>
              exact Or.inr ⟨doc, fun r => by cases r <;> rfl⟩

/-- Either the print route fails before the ledger commit leaving the store
untouched, or it commits the ControlCopy row and its PrintLog row and only
the answer — not the store — depends on the rendering outcome. -/
theorem printHandler_shape (s : Store) (docId userId : String) (v : Option Int)
    (now : Nat) :
    (∃ e, (∀ r, printHandler s docId userId v r now = (e, s)) ∧
      ∀ x n, e ≠ DistRes.served x n) ∨
    (∃ doc : Document, ∀ r, printHandler s docId userId v r now =
      (if r then DistRes.served doc.id (copyCount s doc.id + 1)
       else DistRes.renderError,
       (createPrintLog (createControlCopy s doc.id userId "print" now).2
         doc.id userId
         (createControlCopy s doc.id userId "print" now).1.id "PDF").2)) := by
  simp only [printHandler]
  cases hu : getUser s userId with
  | none =>
    exact Or.inl ⟨.userNotFound, fun r => rfl, fun x n h => DistRes.noConfusion h⟩
  | some user =>
    try dsimp only
    cases hd : getDocument s docId with
    | none =>
      exact Or.inl ⟨.docNotFound, fun r => rfl, fun x n h => DistRes.noConfusion h⟩
    | some document =>
      try dsimp only
      cases hv : issuedVersions s document.docNumber with
      | nil =>
        exact Or.inl ⟨.noIssuedVersions, fun r => rfl,
          fun x n h => DistRes.noConfusion h⟩
      | cons h t =>
        try dsimp only
        cases hr : resolveRequested s user document h t v with
        | error e =>
          exact Or.inl ⟨e, fun r => rfl,
            resolveRequested_error_not_served s user document h t v e hr⟩
        | ok doc =>
          try dsimp only
          cases hst : doc.status != "issued" with
          | true =>
            exact Or.inl ⟨.notIssued, fun r => rfl,
              fun x n h => DistRes.noConfusion h⟩
          | false =>
            try dsimp only
            cases hw : doc.wordFilePath with
            | none =>
              exact Or.inl ⟨.noWordFile, fun r => rfl,
                fun x n h => DistRes.noConfusion h⟩
            | some p =>
              exact Or.inr ⟨doc, fun r => by cases r <;> rfl⟩

/-- C7: for every view or print request the resulting store does not depend
on whether rendering succeeds, and whenever the successful-rendering run
serves a copy, the failed-rendering run on the same store surfaces the
failure while the already-committed ControlCopy row (and, for print, the
PrintLog row) remains in place — one more control copy for the served
document and one more print-log row — with no rollback. -/
theorem copyNumber_committed_before_render (s : Store) (docId userId : String)
    (v : Option Int) (now : Nat) :
    ((pdfHandler s docId userId v false now).2 =
      (pdfHandler s docId userId v true now).2) ∧
    ((printHandler s docId userId v false now).2 =
      (printHandler s docId userId v true now).2) ∧
    (∀ x n, (pdfHandler s docId userId v true now).1 = .served x n →
      (pdfHandler s docId userId v false now).1 = .renderError ∧
      copyCount (pdfHandler s docId userId v false now).2 x =
        copyCount s x + 1) ∧
    (∀ x n, (printHandler s docId userId v true now).1 = .served x n →
      (printHandler s docId userId v false now).1 = .renderError ∧
      copyCount (printHandler s docId userId v false now).2 x =
        copyCount s x + 1 ∧
      (printHandler s docId userId v false now).2.printLogs.length =
        s.printLogs.length + 1) := by
  refine ⟨?_, ?_, ?_, ?_⟩
  · rcases pdfHandler_shape s docId userId v now with ⟨e, heq, -⟩ | ⟨doc, heq⟩ <;>
      rw [heq false, heq true]
  · rcases printHandler_shape s docId userId v now with ⟨e, heq, -⟩ | ⟨doc, heq⟩ <;>
      rw [heq false, heq true]
  · intro x n hs
    rcases pdfHandler_shape s docId userId v now with ⟨e, heq, hne⟩ | ⟨doc, heq⟩
    · rw [heq true] at hs
      exact absurd hs (hne x n)
    · rw [heq true] at hs
      simp only [if_true] at hs
      have hx : doc.id = x := by
        have h2 := hs
        simp only [Prod.fst] at h2
        injection h2
      rw [heq false]
      subst hx
      exact ⟨rfl, copyCount_createControlCopy s doc.id userId "view" now⟩
  · intro x n hs
    rcases printHandler_shape s docId userId v now with ⟨e, heq, hne⟩ | ⟨doc, heq⟩
    · rw [heq true] at hs
      exact absurd hs (hne x n)
    · rw [heq true] at hs
      simp only [if_true] at hs
      have hx : doc.id = x := by
        have h2 := hs
        simp only [Prod.fst] at h2
        injection h2
      rw [heq false]
      subst hx
      refine ⟨rfl, ?_, ?_⟩
      · simp [createPrintLog, copyCount, createControlCopy]
      · simp [createPrintLog, createControlCopy]

/-- Witness for C7: in distStore the non-master user u4 views and prints
the latest issued revision v1; the render-success runs serve copy 1, and
the ledger facts of the theorem follow for the render-failure runs. -/
theorem copyNumber_committed_before_render_witness :
    ((pdfHandler distStore "v1" "u4" none false 0).1 = .renderError ∧
      copyCount (pdfHandler distStore "v1" "u4" none false 0).2 "v1" =
        copyCount distStore "v1" + 1) ∧
    ((printHandler distStore "v1" "u4" none false 0).1 = .renderError ∧
      copyCount (printHandler distStore "v1" "u4" none false 0).2 "v1" =
        copyCount distStore "v1" + 1 ∧
      (printHandler distStore "v1" "u4" none false 0).2.printLogs.length =
        distStore.printLogs.length + 1) :=
  ⟨(copyNumber_committed_before_render distStore "v1" "u4" none 0).2.2.1
     "v1" 1 (by decide),
   (copyNumber_committed_before_render distStore "v1" "u4" none 0).2.2.2
     "v1" 1 (by decide)⟩

theorem docRevUnique_updateDocument (s : Store) (docId : String)
    (f : Document → Document)
    (hn : ∀ d, (f d).docNumber = d.docNumber)
    (hr : ∀ d, (f d).revisionNo = d.revisionNo)
    (h : docRevUnique s) : docRevUnique (updateDocument s docId f) := by
  unfold docRevUnique at h ⊢
  rw [updateDocument_documents]
  refine List.Pairwise.map _ ?_ h
  intro a b hab hdn
  have hna : (if a.id == docId then f a else a).docNumber = a.docNumber := by
    split
    · exact hn a
    · rfl
  have hnb : (if b.id == docId then f b else b).docNumber = b.docNumber := by
    split
    · exact hn b
    · rfl
  have hra : (if a.id == docId then f a else a).revisionNo = a.revisionNo := by
    split
    · exact hr a
    · rfl
  have hrb : (if b.id == docId then f b else b).revisionNo = b.revisionNo := by
    split
    · exact hr b
    · rfl
  rw [hna, hnb] at hdn
  rw [hra, hrb]
  exact hab hdn

theorem pdfHandler_documents (s : Store) (a b : String) (v : Option Int)
    (r : Bool) (n : Nat) :
    (pdfHandler s a b v r n).2.documents = s.documents := by
  unfold pdfHandler
  repeat' split <;> try rfl

theorem printHandler_documents (s : Store) (a b : String) (v : Option Int)
    (r : Bool) (n : Nat) :
    (printHandler s a b v r n).2.documents = s.documents := by
  unfold printHandler
  repeat' split <;> try rfl

theorem docRevUnique_step (s : Store) (op : Op) (h : docRevUnique s) :
    docRevUnique (step s op) := by
  cases op with
  | create nd =>
    simp only [step, createHandler]
    cases hdup : createDocument s nd with
    | error e => exact h
    | ok p =>
      obtain ⟨d0, s1⟩ := p
      try dsimp only
      unfold docRevUnique
      rw [foldl_notify_documents]
      unfold createDocument at hdup
      by_cases hc : (s.documents.any (fun d => d.docNumber == nd.docNumber &&
          d.revisionNo == nd.revisionNo)) = true
      · rw [if_pos hc] at hdup
        exact Except.noConfusion hdup
      · rw [if_neg hc] at hdup
        injection hdup with h2
        rw [Prod.mk.injEq] at h2
        obtain ⟨hd0, hs1⟩ := h2
        subst hd0
        subst hs1
        refine docRevUnique_updateDocument _ _ _ (fun x => rfl) (fun x => rfl) ?_
        unfold docRevUnique
        dsimp only
        rw [List.pairwise_append]
        have hanyf : (s.documents.any (fun d => d.docNumber == nd.docNumber &&
            d.revisionNo == nd.revisionNo)) = false :=
          Bool.not_eq_true _ |>.mp hc
        have hfresh := List.any_eq_false.mp hanyf
        refine ⟨h, by simp, ?_⟩
        intro a ha b hb
        rw [List.mem_singleton] at hb
        subst hb
        have hfa := hfresh a ha
        simp only [Bool.and_eq_true, beq_iff_eq, not_and] at hfa
        intro hdn hrv
        exact hfa hdn hrv
  | approve docId remarks approvedBy approverName departments now =>
    simp only [step, approveHandler]
    cases hd : getDocument s docId with
    | none => exact h
    | some d =>
      try dsimp only
      unfold docRevUnique
      rw [createNotification_documents, foldl_notify_documents]
      split <;>
        exact docRevUnique_updateDocument s docId _ (fun x => rfl)
          (fun x => rfl) h
  | decline docId remarks =>
    simp only [step, declineHandler]
    cases hd : getDocument s docId with
    | none => exact h
    | some d =>
      try dsimp only
      unfold docRevUnique
      rw [createNotification_documents]
      exact docRevUnique_updateDocument s docId _ (fun x => rfl)
        (fun x => rfl) h
  | issue docId issuedBy issuerName remarks now =>
    simp only [step, issueHandler]
    cases hd : getDocument s docId with
    | none => exact h
    | some d =>
      try dsimp only
      cases hab : d.approvedBy with
      | none =>
        unfold docRevUnique
        rw [createNotification_documents]
        exact docRevUnique_updateDocument s docId _ (fun x => rfl)
          (fun x => rfl) h
      | some a =>
        unfold docRevUnique
        rw [createNotification_documents, createNotification_documents]
        exact docRevUnique_updateDocument s docId _ (fun x => rfl)
          (fun x => rfl) h
  | view docId userId version renderOk now =>
    simp only [step]
    unfold docRevUnique at h ⊢
    rw [pdfHandler_documents]
    exact h
  | printOp docId userId version renderOk now =>
    simp only [step]
    unfold docRevUnique at h ⊢
    rw [printHandler_documents]
    exact h
  | newUser u => exact h
  | markRead notifId => exact h

/-- C8: a creation request whose revisionNo duplicates an existing row of
the same docNumber fails with a ValidationError and changes nothing;
one operation preserves the pairwise distinctness of (docNumber,
revisionNo) over all document rows; and consequently every store reachable
from the empty store by any operation sequence satisfies that
distinctness invariant. -/
theorem docNumber_revision_unique_invariant :
    (∀ (s : Store) (nd : NewDoc),
      (s.documents.any (fun d => d.docNumber == nd.docNumber &&
        d.revisionNo == nd.revisionNo)) = true →
      createHandler s nd = (.validationError, s)) ∧
    (∀ (s : Store) (op : Op), docRevUnique s → docRevUnique (step s op)) ∧
    (∀ ops : List Op, docRevUnique (ops.foldl step emptyStore)) := by
  refine ⟨?_, fun s op h => docRevUnique_step s op h, ?_⟩
  · intro s nd hdup
    simp only [createHandler, createDocument, hdup, if_true]
  · intro ops
    have key : ∀ (l : List Op) (s : Store), docRevUnique s →
        docRevUnique (l.foldl step s) := by
      intro l
      induction l with
      | nil => intro s hs; exact hs
      | cons op l ih =>
        intro s hs
        exact ih (step s op) (docRevUnique_step s op hs)
    refine key ops emptyStore ?_
    unfold docRevUnique emptyStore
    simp

/-- A creation request duplicating the existing issued revision 1 of
QA-001 in distStore. -/
def ndDup : NewDoc :=
  { docName := "Quality Manual", docNumber := "QA-001", revisionNo := 1,
    preparedBy := "u1", headerInfo := "H", footerInfo := "F",
    wordFilePath := "uploads/dup.docx" }

/-- Witness for C8: the duplicate creation against distStore is rejected
with no state change, stepping wfStore by an issue operation preserves the
invariant, and a concrete operation sequence from the empty store ends in
an invariant-satisfying store. -/
theorem docNumber_revision_unique_invariant_witness :
    createHandler distStore ndDup = (.validationError, distStore) ∧
    docRevUnique (step wfStore (Op.issue "d1" "u3" "Ivan Issuer" "ok" 2)) ∧
    docRevUnique ([Op.create ndExample,
      Op.issue "doc0" "u3" "Ivan Issuer" "r" 1].foldl step emptyStore) :=
  ⟨docNumber_revision_unique_invariant.1 distStore ndDup (by decide),
   docNumber_revision_unique_invariant.2.1 wfStore
     (Op.issue "d1" "u3" "Ivan Issuer" "ok" 2) (by unfold docRevUnique; decide),
   docNumber_revision_unique_invariant.2.2 [Op.create ndExample,
     Op.issue "doc0" "u3" "Ivan Issuer" "r" 1]⟩
